import Mathlib

/-!
Shallow embedding of the tower-otel instrumentation middlewares
(src/util/http.rs, src/metrics/http.rs, src/trace/http.rs,
src/trace/http_client.rs, src/trace/grpc.rs, src/trace/injector.rs,
src/trace/extractor.rs) together with theorems checking the
natural-language specification against the code.

Header values are modelled as lists of bytes (`List Nat`, each < 256),
strings as Lean `String`, machine integers as `Nat`/`Int` with explicit
range checks where the Rust code checks them.
-/

/-- Bytes of an ASCII string literal, used to write concrete header values. -/
def str2bytes (s : String) : List Nat :=
  s.data.map (fun c => c.toNat)

/-- Rust u8::is_ascii_whitespace: space, tab, line feed, form feed, carriage return. -/
def isAsciiWhitespace (b : Nat) : Bool :=
  b = 32 || b = 9 || b = 10 || b = 12 || b = 13

/-- Rust slice::trim_ascii: drop ASCII whitespace bytes from both ends. -/
def trimAscii (l : List Nat) : List Nat :=
  ((l.dropWhile isAsciiWhitespace).reverse.dropWhile isAsciiWhitespace).reverse

/-- Rust slice::split(|c| *c == sep): split on a separator byte, keeping empty
segments; the result is always nonempty. -/
def splitByte (sep : Nat) : List Nat → List (List Nat)
  | [] => [[]]
  | b :: rest =>
    let r := splitByte sep rest
    if b = sep then [] :: r
    else match r with
      | [] => [[b]]
      | h :: t => (b :: h) :: t

/-- Rust u8::to_ascii_lowercase. -/
def toAsciiLowerByte (b : Nat) : Nat :=
  if 65 ≤ b ∧ b ≤ 90 then b + 32 else b

/-- ByteSliceExt::strip_prefix_ignore_ascii_case from src/util/http.rs: if the
slice is at least as long as the pattern and the leading bytes match it up to
ASCII case, return the remainder. -/
def strip_prefix_ignore_ascii_case (l p : List Nat) : Option (List Nat) :=
  if l.length < p.length then none
  else if (l.zip p).all (fun ab => toAsciiLowerByte ab.1 = toAsciiLowerByte ab.2)
  then some (l.drop p.length)
  else none

/-- UTF-8 decoding of a byte list into characters (std::str::from_utf8):
fails on any ill-formed sequence (overlongs, surrogates, out-of-range). -/
def utf8DecodeChars : List Nat → Option (List Char)
  | [] => some []
  | b :: rest =>
    if b ≤ 0x7F then
      (utf8DecodeChars rest).map (fun cs => Char.ofNat b :: cs)
    else if b < 0xC2 then none
    else if b ≤ 0xDF then
      match rest with
      | [] => none
      | b1 :: rest1 =>
        if 0x80 ≤ b1 ∧ b1 ≤ 0xBF then
          (utf8DecodeChars rest1).map
            (fun cs => Char.ofNat ((b - 0xC0) * 0x40 + (b1 - 0x80)) :: cs)
        else none
    else if b ≤ 0xEF then
      match rest with
      | [] => none
      | b1 :: rest1 =>
        let lo := if b = 0xE0 then 0xA0 else 0x80
        let hi := if b = 0xED then 0x9F else 0xBF
        if lo ≤ b1 ∧ b1 ≤ hi then
          match rest1 with
          | [] => none
          | b2 :: rest2 =>
            if 0x80 ≤ b2 ∧ b2 ≤ 0xBF then
              (utf8DecodeChars rest2).map
                (fun cs =>
                  Char.ofNat ((b - 0xE0) * 0x1000 + (b1 - 0x80) * 0x40 + (b2 - 0x80)) :: cs)
            else none
        else none
    else if b ≤ 0xF4 then
      match rest with
      | [] => none
      | b1 :: rest1 =>
        let lo := if b = 0xF0 then 0x90 else 0x80
        let hi := if b = 0xF4 then 0x8F else 0xBF
        if lo ≤ b1 ∧ b1 ≤ hi then
          match rest1 with
          | [] => none
          | b2 :: rest2 =>
            if 0x80 ≤ b2 ∧ b2 ≤ 0xBF then
              match rest2 with
              | [] => none
              | b3 :: rest3 =>
                if 0x80 ≤ b3 ∧ b3 ≤ 0xBF then
                  (utf8DecodeChars rest3).map
                    (fun cs =>
                      Char.ofNat ((b - 0xF0) * 0x40000 + (b1 - 0x80) * 0x1000
                        + (b2 - 0x80) * 0x40 + (b3 - 0x80)) :: cs)
                else none
            else none
        else none
    else none

/-- std::str::from_utf8(..).ok(): the decoded string when the bytes are valid UTF-8. -/
def fromUtf8 (l : List Nat) : Option String :=
  (utf8DecodeChars l).map String.mk

/-- Parsed Forwarded header, struct Forwarded from src/util/http.rs. -/
structure Forwarded where
  host : Option String
  proto : Option String
deriving DecidableEq, Repr

/-- One directive step of the loop body in Forwarded::parse_header_value:
trim the directive, then try host= and proto= in sequence, each time
overwriting the accumulator with the from_utf8 result. -/
def forwardedDirectiveStep (acc : Option String × Option String) (d : List Nat) :
    Option String × Option String :=
  let d := trimAscii d
  let acc :=
    match strip_prefix_ignore_ascii_case d (str2bytes "host=") with
    | some rest => (fromUtf8 rest, acc.2)
    | none => acc
  match strip_prefix_ignore_ascii_case d (str2bytes "proto=") with
  | some rest => (acc.1, fromUtf8 rest)
  | none => acc

/-- Forwarded::parse_header_value from src/util/http.rs: split the value on
commas, take the last proxy hop, split it on semicolons and fold the
directive loop over it. -/
def Forwarded.parse_header_value (v : List Nat) : Forwarded :=
  let proxies := splitByte 44 v
  match proxies.getLast? with
  | none => ⟨none, none⟩
  | some proxy =>
    let hp := (splitByte 59 proxy).foldl forwardedDirectiveStep (none, none)
    ⟨hp.1, hp.2⟩

/-- http::HeaderValue::to_str: succeeds iff every byte is visible ASCII
(32..=126) or horizontal tab, yielding the corresponding string. -/
def headerValueToStr (l : List Nat) : Option String :=
  if l.all (fun b => (32 ≤ b ∧ b < 127) ∨ b = 9) then
    some (String.mk (l.map Char.ofNat))
  else none

/-- Character allowed in an http::HeaderName (RFC 7230 token characters;
uppercase letters are accepted and normalized to lowercase on parsing),
given by code point. -/
def isHeaderNameChar (n : Nat) : Bool :=
  (48 ≤ n && n ≤ 57) || (65 ≤ n && n ≤ 90) || (97 ≤ n && n ≤ 122) ||
  n = 33 || n = 35 || n = 36 || n = 37 || n = 38 || n = 39 || n = 42 ||
  n = 43 || n = 45 || n = 46 || n = 94 || n = 95 || n = 96 || n = 124 || n = 126

/-- http::HeaderName::from_str validity: nonempty and made of token characters. -/
def validHeaderName (s : String) : Bool :=
  s.data ≠ [] && s.data.all (fun c => isHeaderNameChar c.toNat)

/-- UTF-8 encoding of a single character. -/
def utf8EncodeChar (c : Char) : List Nat :=
  let n := c.toNat
  if n < 0x80 then [n]
  else if n < 0x800 then [0xC0 + n / 0x40, 0x80 + n % 0x40]
  else if n < 0x10000 then
    [0xE0 + n / 0x1000, 0x80 + (n / 0x40) % 0x40, 0x80 + n % 0x40]
  else
    [0xF0 + n / 0x40000, 0x80 + (n / 0x1000) % 0x40,
      0x80 + (n / 0x40) % 0x40, 0x80 + n % 0x40]

/-- The UTF-8 bytes of a string (str::as_bytes). -/
def utf8Encode (s : String) : List Nat :=
  (s.data.map utf8EncodeChar).flatten

/-- http::HeaderValue::from_str validity: the same per-byte check as
from_bytes over the string's UTF-8 bytes — each byte is at least 32 and not
127, or horizontal tab. Opaque octets 0x80-0xFF (the bytes of every
non-ASCII character) are accepted; only ASCII control characters other than
tab, and DEL, are rejected. -/
def validHeaderValue (s : String) : Bool :=
  (utf8Encode s).all (fun b => (32 ≤ b ∧ b ≠ 127) ∨ b = 9)

/-- Visible-ASCII-or-tab text: the condition under which every byte of the
value is visible ASCII or tab, i.e. the string level counterpart of the
to_str success check. -/
def asciiHeaderValue (s : String) : Bool :=
  s.data.all (fun c => (32 ≤ c.toNat ∧ c.toNat < 127) ∨ c.toNat = 9)

/-- ASCII lowercase of a character, used for header-name normalization. -/
def lowerChar (c : Char) : Char :=
  if 65 ≤ c.toNat ∧ c.toNat ≤ 90 then Char.ofNat (c.toNat + 32) else c

/-- ASCII lowercase of a string. -/
def lowerString (s : String) : String :=
  String.mk (s.data.map lowerChar)

/-- A header map: association list from (lowercase) header names to raw
byte values, modelling http::HeaderMap. -/
abbrev HeaderMap := List (String × List Nat)

/-- http::HeaderMap::get by string name: case-insensitive lookup of the
first entry for the name. -/
def headerGet (hs : HeaderMap) (name : String) : Option (List Nat) :=
  (hs.find? (fun kv => lowerString kv.1 = lowerString name)).map (fun kv => kv.2)

/-- http::HeaderMap::insert: replaces every existing value for the name. -/
def headerInsert (hs : HeaderMap) (name : String) (value : List Nat) : HeaderMap :=
  (hs.filter (fun kv => lowerString kv.1 ≠ name)) ++ [(name, value)]

/-- HeaderInjector::set from src/trace/injector.rs: parse the key as a header
name (normalizing to lowercase) and the value as a header value; insert only
when both succeed, silently dropping the pair otherwise. -/
def headerInjectorSet (hs : HeaderMap) (key : String) (value : String) : HeaderMap :=
  if validHeaderName key then
    if validHeaderValue value then
      headerInsert hs (lowerString key) (utf8Encode value)
    else hs
  else hs

/-- HeaderExtractor::get from src/trace/extractor.rs: look the key up and
decode the value as visible-ASCII text. -/
def headerExtractorGet (hs : HeaderMap) (key : String) : Option String :=
  (headerGet hs key).bind headerValueToStr

/-- Fold of HeaderInjector::set over the key/value pairs written by a
propagator's inject call. -/
def injectAll (writes : List (String × String)) (hs : HeaderMap) : HeaderMap :=
  writes.foldl (fun h kv => headerInjectorSet h kv.1 kv.2) hs

/-- Digit-string parser: all characters are ASCII digits and there is at
least one, accumulating the base-10 value. -/
def parseNatDigits (cs : List Char) : Option Nat :=
  if cs ≠ [] ∧ cs.all (fun c => 48 ≤ c.toNat ∧ c.toNat ≤ 57) then
    some (cs.foldl (fun a c => a * 10 + (c.toNat - 48)) 0)
  else none

/-- Rust str::parse::<u64>: optional leading plus sign, then digits, and the
value must fit in 64 bits. -/
def parseU64 (s : String) : Option Nat :=
  let ds := match s.data with
    | '+' :: rest => rest
    | cs => cs
  (parseNatDigits ds).bind (fun n => if n < 2 ^ 64 then some n else none)

/-- Rust str::parse::<i32>: optional leading sign, then digits, and the
value must fit in the i32 range. -/
def parseI32 (s : String) : Option Int :=
  let sd : Int × List Char := match s.data with
    | '+' :: rest => (1, rest)
    | '-' :: rest => (-1, rest)
    | cs => (1, cs)
  (parseNatDigits sd.2).bind (fun n =>
    let v : Int := sd.1 * n
    if -2147483648 ≤ v ∧ v ≤ 2147483647 then some v else none)

/-- http::Method, with the known verbs and an extension variant carrying
its textual form. -/
inductive Method where
  | GET | POST | PUT | DELETE | HEAD | OPTIONS | CONNECT | PATCH | TRACE
  | other (s : String)
deriving DecidableEq, Repr

/-- util::http_method from src/util/http.rs: canonical token of a known
verb, the sentinel _OTHER for everything else. -/
def http_method (m : Method) : String :=
  match m with
  | .GET => "GET"
  | .POST => "POST"
  | .PUT => "PUT"
  | .DELETE => "DELETE"
  | .HEAD => "HEAD"
  | .OPTIONS => "OPTIONS"
  | .CONNECT => "CONNECT"
  | .PATCH => "PATCH"
  | .TRACE => "TRACE"
  | .other _ => "_OTHER"

/-- Display of http::Method: the verb itself, or the extension string. -/
def methodDisplay (m : Method) : String :=
  match m with
  | .other s => s
  | m => http_method m

/-- http::Version. -/
inductive Version where
  | HTTP_09 | HTTP_10 | HTTP_11 | HTTP_2 | HTTP_3
  | other
deriving DecidableEq, Repr

/-- util::http_version from src/util/http.rs. -/
def http_version (v : Version) : Option String :=
  match v with
  | .HTTP_09 => some "0.9"
  | .HTTP_10 => some "1.0"
  | .HTTP_11 => some "1.1"
  | .HTTP_2 => some "2"
  | .HTTP_3 => some "3"
  | .other => none

/-- An http::Request with the accessors the middlewares consult: method,
the URI's parts (scheme, host, port, path, query, and its Display form),
version, headers, the axum MatchedPath extension slot, and the body's
exact size hint. -/
structure Request where
  method : Method
  uriScheme : Option String
  uriHost : Option String
  uriPort : Option Nat
  uriPath : String
  uriQuery : Option String
  uriFull : String
  version : Version
  headers : HeaderMap
  routeExtension : Option String
  bodySizeHint : Option Nat
deriving DecidableEq

/-- An http::Response with the accessors the middlewares consult. -/
structure Response where
  status : Nat
  headers : HeaderMap
  bodySizeHint : Option Nat
deriving DecidableEq

/-- util::http_route (axum-feature variant from src/util/http.rs): the
MatchedPath extension when present. -/
def http_route (req : Request) : Option String :=
  req.routeExtension

/-- util::http_request_size from src/util/http.rs: Content-Length header
decoded as text and parsed as u64, falling back to the body's exact size hint. -/
def http_request_size (req : Request) : Option Nat :=
  (((headerGet req.headers "content-length").bind headerValueToStr).bind parseU64).orElse
    (fun _ => req.bodySizeHint)

/-- util::http_response_size from src/util/http.rs. -/
def http_response_size (res : Response) : Option Nat :=
  (((headerGet res.headers "content-length").bind headerValueToStr).bind parseU64).orElse
    (fun _ => res.bodySizeHint)

/-- Modelled from the spec: util::http_url_scheme is called from
src/trace/http.rs and src/metrics/http.rs but the util module root defining
it is not under src. Spec section 4.1 urlScheme: for inbound requests the
scheme is resolved via the forwarded-header precedence of section 3 — the
last hop of the Forwarded header's proto directive, then X-Forwarded-Proto —
matching the scheme half of HttpRequestAttributes::from_recv_request in
src/util/http.rs. -/
def http_url_scheme (req : Request) : Option String :=
  ((headerGet req.headers "forwarded").map Forwarded.parse_header_value).bind
    (fun f => f.proto) |>.orElse
      (fun _ => (headerGet req.headers "x-forwarded-proto").bind headerValueToStr)

/-- Value of an opentelemetry::KeyValue attribute as used by the metrics
middleware: strings and 64-bit integers. -/
inductive AttrValue where
  | s (v : String)
  | i (v : Int)
deriving DecidableEq, Repr

/-- opentelemetry::KeyValue. -/
structure KeyValue where
  key : String
  value : AttrValue
deriving DecidableEq, Repr

/-- enum MetricSide from src/metrics/http.rs. -/
inductive MetricSide where
  | Client
  | Server
deriving DecidableEq, Repr

/-- struct ResponseMetricState from src/metrics/http.rs, with the start
instant abstracted away (wall-clock time is not modelled). -/
structure ResponseMetricState where
  request_body_size : Option Nat
  attributes : List KeyValue
  active_requests_attributes : Nat
deriving DecidableEq

/-- An optional attribute: a singleton list when the source pushes it,
empty when the source skips the push. -/
def optAttr (key : String) (v : Option AttrValue) : List KeyValue :=
  match v with
  | some v => [⟨key, v⟩]
  | none => []

/-- The attribute block of ResponseMetricState::new (src/metrics/http.rs)
pushed before the active-requests boundary is taken: method, server address,
server port and url scheme (the scheme read from the URI on the client side
and resolved from forwarding headers on the server side). -/
def ResponseMetricState.baseAttributes (side : MetricSide) (req : Request) :
    List KeyValue :=
  let a := [(⟨"http.request.method", .s (http_method req.method)⟩ : KeyValue)]
  let a := a ++ optAttr "server.address" ((req.uriHost).map .s)
  let a := a ++ optAttr "server.port" ((req.uriPort).map (fun p => .i p))
  let url_scheme := match side with
    | .Client => req.uriScheme
    | .Server => http_url_scheme req
  a ++ optAttr "url.scheme" (url_scheme.map .s)

/-- ResponseMetricState::new from src/metrics/http.rs: capture the request
body size; push the base attribute block; remember the attribute count as
the active-requests boundary; then push protocol name, protocol version and
route attributes. -/
def ResponseMetricState.new (side : MetricSide) (req : Request) : ResponseMetricState :=
  let request_body_size := http_request_size req
  let a := ResponseMetricState.baseAttributes side req
  let boundary := a.length
  let a := a ++ [⟨"network.protocol.name", .s "http"⟩]
  let a := a ++ optAttr "network.protocol.version" ((http_version req.version).map .s)
  let a := a ++ optAttr "http.route" ((http_route req).map .s)
  { request_body_size, attributes := a, active_requests_attributes := boundary }

/-- ResponseMetricState::push_response_attributes from src/metrics/http.rs:
on success push the numeric status code, on error push the stringified error. -/
def ResponseMetricState.push_response_attributes {E : Type} (st : ResponseMetricState)
    (display : E → String) (res : Except E Response) : ResponseMetricState :=
  match res with
  | .ok response =>
    { st with attributes :=
        st.attributes ++ [⟨"http.response.status_code", .i response.status⟩] }
  | .error err =>
    { st with attributes := st.attributes ++ [⟨"error.type", .s (display err)⟩] }

/-- ResponseMetricState::attributes. -/
def ResponseMetricState.attrs (st : ResponseMetricState) : List KeyValue :=
  st.attributes

/-- ResponseMetricState::active_requests_attributes: the boundary-length
front part of the attribute list. -/
def ResponseMetricState.activeAttrs (st : ResponseMetricState) : List KeyValue :=
  st.attributes.take st.active_requests_attributes

/-- One recording operation performed against the metric instrument set. -/
inductive MetricOp where
  | durationRecord (attrs : List KeyValue)
  | activeAdd (delta : Int) (attrs : List KeyValue)
  | requestSizeRecord (size : Nat) (attrs : List KeyValue)
  | responseSizeRecord (size : Nat) (attrs : List KeyValue)
deriving DecidableEq

/-- Http::call from src/metrics/http.rs: build the metric state, forward the
request unchanged, and add +1 to the active-requests counter with the
active-requests attribute set. -/
def metricsCall (side : MetricSide) (req : Request) :
    ResponseMetricState × List MetricOp × Request :=
  let state := ResponseMetricState.new side req
  (state, [.activeAdd 1 state.activeAttrs], req)

/-- The ready branch of ResponseFuture::poll from src/metrics/http.rs: push
the outcome attribute, record the duration histogram with the full attribute
set, add -1 to the active-requests counter with the active-requests attribute
set, record the captured request body size, and on success a derivable
response body size; finally yield the inner outcome unchanged. -/
def metricsPollReady {E : Type} (display : E → String) (st : ResponseMetricState)
    (res : Except E Response) : List MetricOp × Except E Response :=
  let st := st.push_response_attributes display res
  let ops := [MetricOp.durationRecord st.attrs]
  let ops := ops ++ [.activeAdd (-1) st.activeAttrs]
  let ops := ops ++
    (match st.request_body_size with
     | some n => [MetricOp.requestSizeRecord n st.attrs]
     | none => [])
  let ops := ops ++
    (match res with
     | .ok response =>
       match http_response_size response with
       | some n => [MetricOp.responseSizeRecord n st.attrs]
       | none => []
     | .error _ => [])
  (ops, res)

/-- How one request's ResponseFuture ends: the inner future resolves
(success or error), or the future is dropped before resolving. -/
inductive Ending (E : Type) where
  | ready (res : Except E Response)
  | dropped

/-- All metric operations over one request's lifetime: the call-time
operations, nothing for each pending poll (the ready! macro returns early),
then the ready-branch operations — or nothing on the drop path, since
ResponseFuture has no Drop implementation in src/metrics/http.rs. -/
def lifecycleOps {E : Type} (display : E → String) (side : MetricSide) (req : Request)
    (pendingPolls : Nat) (ending : Ending E) : List MetricOp :=
  let c := metricsCall side req
  c.2.1 ++ (List.replicate pendingPolls ([] : List MetricOp)).flatten ++
    (match ending with
     | .ready res => (metricsPollReady display c.1 res).1
     | .dropped => [])

/-- Net effect of a list of metric operations on the active-requests counter. -/
def netActive (ops : List MetricOp) : Int :=
  ops.foldl (fun acc op =>
    match op with
    | .activeAdd d _ => acc + d
    | _ => acc) 0

/-- Number of values recorded to the duration histogram. -/
def durationCount (ops : List MetricOp) : Nat :=
  ops.countP (fun op =>
    match op with
    | .durationRecord _ => true
    | _ => false)

/-- The +1 additions to the active-requests counter among a list of operations. -/
def activeIncrements (ops : List MetricOp) : List (List KeyValue) :=
  ops.filterMap (fun op =>
    match op with
    | .activeAdd 1 attrs => some attrs
    | _ => none)

/-- The -1 additions to the active-requests counter among a list of operations. -/
def activeDecrements (ops : List MetricOp) : List (List KeyValue) :=
  ops.filterMap (fun op =>
    match op with
    | .activeAdd (-1) attrs => some attrs
    | _ => none)

/-- enum SpanKind from src/trace/http.rs and src/trace/grpc.rs. -/
inductive SpanKind where
  | Client
  | Server
deriving DecidableEq, Repr

/-- fn span_kind: string representation of the span kind. -/
def span_kind (kind : SpanKind) : String :=
  match kind with
  | .Client => "client"
  | .Server => "server"

/-- Recorded fields of a tracing span, in recording order; placeholder
(Empty) fields are not recorded. -/
abbrev SpanFields := List (String × AttrValue)

/-- The last value recorded on a span under a key (a later record overwrites
an earlier one when the span is read). -/
def lastVal (fields : SpanFields) (key : String) : Option AttrValue :=
  (fields.reverse.find? (fun f => f.1 = key)).map (fun f => f.2)

/-- The span attributes produced by iterating a header map: one attribute
per header whose value decodes as visible-ASCII text, keyed by the given
name plus the header name (the format! call in the source). -/
def headerAttrs (pre : String) (hs : HeaderMap) : SpanFields :=
  hs.filterMap (fun kv =>
    (headerValueToStr kv.2).map
      (fun v => (String.mk (pre.data ++ kv.1.data), AttrValue.s v)))

/-- An optional span field, recorded only when the value is present. -/
def optField (key : String) (v : Option String) : SpanFields :=
  match v with
  | some v => [(key, AttrValue.s v)]
  | none => []

/-- http::StatusCode::is_client_error. -/
def isClientError (s : Nat) : Bool :=
  decide (400 ≤ s ∧ s < 500)

/-- http::StatusCode::is_server_error. -/
def isServerError (s : Nat) : Bool :=
  decide (500 ≤ s ∧ s < 600)

namespace Trace

/-- make_request_span from src/trace/http.rs: record the initial fields
(method, protocol name/version, kind, path), the request headers as
attributes, the query, then the kind branch — client records url.full and
the URI scheme and injects the propagator's writes into the request's
headers before it is forwarded; server records the route and the
forwarded-resolved scheme. Returns the span fields and the (possibly
mutated) request that is forwarded to the inner service. `writes` is the
key/value sequence the globally configured propagator emits for the span's
context. -/
def make_request_span (kind : SpanKind) (writes : List (String × String))
    (req : Request) : SpanFields × Request :=
  let fields := [("http.request.method", AttrValue.s (http_method req.method)),
                 ("network.protocol.name", AttrValue.s "http")]
  let fields := fields ++ optField "network.protocol.version" (http_version req.version)
  let fields := fields ++ [("otel.kind", AttrValue.s (span_kind kind)),
                           ("url.path", AttrValue.s req.uriPath)]
  let fields := fields ++ headerAttrs "http.request.header." req.headers
  let fields := fields ++ optField "url.query" req.uriQuery
  match kind with
  | .Client =>
    let fields := fields ++ [("url.full", AttrValue.s req.uriFull)]
    let fields := fields ++ optField "url.scheme" req.uriScheme
    (fields, { req with headers := injectAll writes req.headers })
  | .Server =>
    let fields := fields ++ optField "http.route" (http_route req)
    let fields := fields ++ optField "url.scheme" (http_url_scheme req)
    (fields, req)

/-- record_response from src/trace/http.rs: record the status code and the
response headers; a client-kind span gets otel.status_code = ERROR on a
client-error status, and any span gets it on a server-error status. -/
def record_response (fields : SpanFields) (kind : SpanKind) (res : Response) :
    SpanFields :=
  let fields := fields ++ [("http.response.status_code", AttrValue.i res.status)]
  let fields := fields ++ headerAttrs "http.response.header." res.headers
  let fields := fields ++
    (match kind with
     | .Client =>
       if isClientError res.status then [("otel.status_code", AttrValue.s "ERROR")] else []
     | .Server => [])
  fields ++
    (if isServerError res.status then [("otel.status_code", AttrValue.s "ERROR")] else [])

/-- record_error from src/trace/http.rs: record otel.status_code = ERROR and
the stringified error. -/
def record_error (fields : SpanFields) (msg : String) : SpanFields :=
  fields ++ [("otel.status_code", AttrValue.s "ERROR"), ("error.message", AttrValue.s msg)]

/-- The ready branch of ResponseFuture::poll from src/trace/http.rs: run the
success or error finalization on the span and yield the inner outcome
unchanged. -/
def pollReady {E : Type} (display : E → String) (fields : SpanFields) (kind : SpanKind)
    (res : Except E Response) : SpanFields × Except E Response :=
  match res with
  | .ok response => (record_response fields kind response, .ok response)
  | .error err => (record_error fields (display err), .error err)

end Trace

namespace HttpClient

/-- make_request_span from src/trace/http_client.rs: record method (Display
form), protocol name/version and url.full, then the request headers, then
always inject the propagator's writes into the outbound headers. -/
def make_request_span (writes : List (String × String)) (req : Request) :
    SpanFields × Request :=
  let fields := [("http.request.method", AttrValue.s (methodDisplay req.method)),
                 ("network.protocol.name", AttrValue.s "http")]
  let fields := fields ++ optField "network.protocol.version" (http_version req.version)
  let fields := fields ++ [("url.full", AttrValue.s req.uriFull)]
  let fields := fields ++ headerAttrs "http.request.header." req.headers
  (fields, { req with headers := injectAll writes req.headers })

/-- record_response from src/trace/http_client.rs: record the status code and
the response headers; only a client-error status marks otel.status_code =
ERROR. -/
def record_response (fields : SpanFields) (res : Response) : SpanFields :=
  let fields := fields ++ [("http.response.status_code", AttrValue.i res.status)]
  let fields := fields ++ headerAttrs "http.response.header." res.headers
  fields ++
    (if isClientError res.status then [("otel.status_code", AttrValue.s "ERROR")] else [])

/-- record_error from src/trace/http_client.rs. -/
def record_error (fields : SpanFields) (msg : String) : SpanFields :=
  fields ++ [("otel.status_code", AttrValue.s "ERROR"), ("error.message", AttrValue.s msg)]

end HttpClient

/-- str::trim_start_matches with pattern '/': drop every leading slash. -/
def trimLeadingSlashes (s : String) : String :=
  String.mk (s.data.dropWhile (fun c => c = '/'))

/-- str::split_once: split at the first occurrence of the character, or
none when the character does not occur. -/
def splitOnceChar (c : Char) (s : String) : Option (String × String) :=
  match s.data.dropWhile (fun x => x ≠ c) with
  | [] => none
  | _ :: rest => some (String.mk (s.data.takeWhile (fun x => x ≠ c)), String.mk rest)

namespace Grpc

/-- make_request_span from src/trace/grpc.rs: record rpc.system, the request
headers as metadata attributes, otel.kind, otel.name (the path with leading
slashes trimmed), and rpc.service / rpc.method when the trimmed name splits
on a slash; a client-kind span then injects the propagator's writes into the
request headers before it is forwarded. -/
def make_request_span (kind : SpanKind) (writes : List (String × String))
    (req : Request) : SpanFields × Request :=
  let fields := [("rpc.system", AttrValue.s "grpc")]
  let fields := fields ++ headerAttrs "rpc.grpc.request.metadata." req.headers
  let fields := fields ++ [("otel.kind", AttrValue.s (span_kind kind))]
  let name := trimLeadingSlashes req.uriPath
  let fields := fields ++ [("otel.name", AttrValue.s name)]
  let fields := fields ++
    (match splitOnceChar '/' name with
     | some sm => [("rpc.service", AttrValue.s sm.1), ("rpc.method", AttrValue.s sm.2)]
     | none => [])
  match kind with
  | .Client => (fields, { req with headers := injectAll writes req.headers })
  | .Server => (fields, req)

/-- record_response from src/trace/grpc.rs: record the response headers as
metadata attributes; then, when the grpc-status header is absent record
rpc.grpc.status_code = 0, and when it is present record the value only if it
decodes as text and parses as an i32. -/
def record_response (fields : SpanFields) (res : Response) : SpanFields :=
  let fields := fields ++ headerAttrs "rpc.grpc.response.metadata." res.headers
  fields ++
    (match headerGet res.headers "grpc-status" with
     | some v =>
       match headerValueToStr v with
       | some s =>
         match parseI32 s with
         | some code => [("rpc.grpc.status_code", AttrValue.i code)]
         | none => []
       | none => []
     | none => [("rpc.grpc.status_code", AttrValue.i 0)])

/-- record_error from src/trace/grpc.rs. -/
def record_error (fields : SpanFields) (msg : String) : SpanFields :=
  fields ++ [("otel.status_code", AttrValue.s "ERROR"), ("error.message", AttrValue.s msg)]

end Grpc

/-- A concrete request used by the closed theorems. -/
def sampleRequest : Request :=
  { method := .GET
    uriScheme := some "http"
    uriHost := some "example.com"
    uriPort := some 8080
    uriPath := "/users/42"
    uriQuery := none
    uriFull := "http://example.com:8080/users/42"
    version := .HTTP_11
    headers := []
    routeExtension := none
    bodySizeHint := none }

/-- A concrete response with the given status code, used by the closed theorems. -/
def sampleResponse (status : Nat) : Response :=
  { status, headers := [], bodySizeHint := none }

/-! ## Helper lemmas -/

theorem lastVal_nil (k : String) : lastVal [] k = none := rfl

theorem lastVal_append (l₁ l₂ : SpanFields) (k : String) :
    lastVal (l₁ ++ l₂) k = (lastVal l₂ k).or (lastVal l₁ k) := by
  simp only [lastVal, List.reverse_append, List.find?_append]
  cases List.find? (fun f => f.1 = k) l₂.reverse <;> simp

theorem lastVal_singleton (a : String × AttrValue) (k : String) :
    lastVal [a] k = if a.1 = k then some a.2 else none := by
  simp only [lastVal, List.reverse_singleton, List.find?]
  by_cases h : a.1 = k <;> simp [h]

theorem lastVal_cons (a : String × AttrValue) (rest : SpanFields) (k : String) :
    lastVal (a :: rest) k = (lastVal rest k).or (if a.1 = k then some a.2 else none) := by
  have : a :: rest = [a] ++ rest := rfl
  rw [this, lastVal_append, lastVal_singleton]

theorem lastVal_none_of (fields : SpanFields) (k : String)
    (h : ∀ f ∈ fields, f.1 ≠ k) : lastVal fields k = none := by
  have hf : fields.reverse.find? (fun f => f.1 = k) = none := by
    rw [List.find?_eq_none]
    intro x hx
    simpa using h x (List.mem_reverse.mp hx)
  simp [lastVal, hf]

theorem lastVal_optField_ne (k' k : String) (v : Option String) (h : k' ≠ k) :
    lastVal (optField k' v) k = none := by
  cases v <;> simp [optField, lastVal_nil, lastVal_singleton, h]

theorem headerAttrs_key_len (pre : String) (hs : HeaderMap) :
    ∀ f ∈ headerAttrs pre hs, pre.length ≤ f.1.length := by
  intro f hf
  simp only [headerAttrs, List.mem_filterMap] at hf
  obtain ⟨kv, _, hkv⟩ := hf
  cases hv : headerValueToStr kv.2 with
  | none => rw [hv] at hkv; exact absurd hkv (by simp)
  | some v =>
    rw [hv] at hkv
    have hfe : (String.mk (pre.data ++ kv.1.data), AttrValue.s v) = f := by
      simpa using hkv
    rw [← hfe]
    show pre.data.length ≤ (pre.data ++ kv.1.data).length
    simp

theorem lastVal_headerAttrs_none (pre : String) (hs : HeaderMap) (k : String)
    (h : k.length < pre.length) : lastVal (headerAttrs pre hs) k = none := by
  apply lastVal_none_of
  intro f hf heq
  have := headerAttrs_key_len pre hs f hf
  rw [heq] at this
  omega

theorem trace_make_span_status_none (kind : SpanKind) (writes : List (String × String))
    (req : Request) :
    lastVal (Trace.make_request_span kind writes req).1 "otel.status_code" = none := by
  have h1 : lastVal (headerAttrs "http.request.header." req.headers) "otel.status_code"
      = none := lastVal_headerAttrs_none _ _ _ (by decide)
  cases kind <;>
    simp [Trace.make_request_span, lastVal_append, lastVal_cons, lastVal_singleton,
      lastVal_nil, lastVal_optField_ne, h1]

theorem http_client_make_span_status_none (writes : List (String × String))
    (req : Request) :
    lastVal (HttpClient.make_request_span writes req).1 "otel.status_code" = none := by
  have h1 : lastVal (headerAttrs "http.request.header." req.headers) "otel.status_code"
      = none := lastVal_headerAttrs_none _ _ _ (by decide)
  simp [HttpClient.make_request_span, lastVal_append, lastVal_cons, lastVal_singleton,
    lastVal_nil, lastVal_optField_ne, h1]

theorem grpc_make_span_grpc_status_none (kind : SpanKind) (writes : List (String × String))
    (req : Request) :
    lastVal (Grpc.make_request_span kind writes req).1 "rpc.grpc.status_code" = none := by
  have h1 : lastVal (headerAttrs "rpc.grpc.request.metadata." req.headers)
      "rpc.grpc.status_code" = none := lastVal_headerAttrs_none _ _ _ (by decide)
  cases kind <;>
    cases h : splitOnceChar '/' (trimLeadingSlashes req.uriPath) <;>
      simp [Grpc.make_request_span, lastVal_append, lastVal_cons, lastVal_singleton,
        lastVal_nil, lastVal_optField_ne, h1, h]

theorem splitByte_ne_nil (sep : Nat) (l : List Nat) : splitByte sep l ≠ [] := by
  induction l with
  | nil => simp [splitByte]
  | cons b rest ih =>
    simp only [splitByte]
    by_cases hb : b = sep
    · simp [hb]
    · simp only [hb, if_false]
      cases h : splitByte sep rest with
      | nil => simp
      | cons x t => simp

theorem splitByte_append_sep (sep : Nat) (xs ys : List Nat) :
    splitByte sep (xs ++ sep :: ys) = splitByte sep xs ++ splitByte sep ys := by
  induction xs with
  | nil => simp [splitByte]
  | cons b xs ih =>
    simp only [List.cons_append, splitByte]
    by_cases hb : b = sep
    · simp [hb, ih]
    · simp only [hb, if_false]
      obtain ⟨h', t', hxs⟩ := List.exists_cons_of_ne_nil (splitByte_ne_nil sep xs)
      have ih2 : splitByte sep (xs.append (sep :: ys))
          = splitByte sep xs ++ splitByte sep ys := ih
      rw [ih2, hxs]
      simp

theorem splitByte_getLast?_isSome (sep : Nat) (l : List Nat) :
    ∃ x, (splitByte sep l).getLast? = some x := by
  have h := splitByte_ne_nil sep l
  cases hE : (splitByte sep l).getLast? with
  | some x => exact ⟨x, rfl⟩
  | none => exact absurd (List.getLast?_eq_none_iff.mp hE) h

/-- Claim C5 counterexample: the input Proto=HTTPS;by=203.0.113.43 yields
scheme HTTPS — the directive value is preserved verbatim, so the claimed
result https (lowercase) is wrong. -/
theorem c5_counterexample :
    Forwarded.parse_header_value (str2bytes "Proto=HTTPS;by=203.0.113.43")
      = ⟨none, some "HTTPS"⟩ ∧ ("HTTPS" : String) ≠ "https" := by
  constructor
  · decide
  · decide

/-- Claim C5 (amended): for every Forwarded header value with multiple
comma-separated hops, only the last hop's proto=/host= directives are
honored (prepending hops before a comma never changes the parse), the
directive name is matched case-insensitively, the input
for=192.0.2.60;proto=http;by=203.0.113.43 yields scheme http and host
absent, and the input Proto=HTTPS;by=203.0.113.43 yields scheme HTTPS
(the directive value is kept verbatim, not lowercased). -/
theorem c5_last_hop_and_examples :
    (∀ earlier lastHop : List Nat,
      Forwarded.parse_header_value (earlier ++ 44 :: lastHop)
        = Forwarded.parse_header_value lastHop)
    ∧ Forwarded.parse_header_value (str2bytes "for=192.0.2.60;proto=http;by=203.0.113.43")
        = ⟨none, some "http"⟩
    ∧ Forwarded.parse_header_value (str2bytes "Proto=HTTPS;by=203.0.113.43")
        = ⟨none, some "HTTPS"⟩ := by
  refine ⟨?_, by decide, by decide⟩
  intro earlier lastHop
  obtain ⟨x, hx⟩ := splitByte_getLast?_isSome 44 lastHop
  have h1 : (splitByte 44 (earlier ++ 44 :: lastHop)).getLast? = some x := by
    rw [splitByte_append_sep, List.getLast?_append, hx]
    rfl
  simp only [Forwarded.parse_header_value, h1, hx]

/-- Claim C3 counterexample: the dedicated HTTP client middleware
(src/trace/http_client.rs) does not set otel.status_code on a server-error
response: a client-kind span observing status 500 keeps otel.status_code
unset, while the claim requires ERROR for every 5xx. -/
theorem c3_counterexample :
    isServerError 500 = true
    ∧ lastVal
        (HttpClient.record_response (HttpClient.make_request_span [] sampleRequest).1
          (sampleResponse 500))
        "otel.status_code" = none := by
  constructor
  · decide
  · decide

/-- Claim C3 (amended): for the combined HTTP trace middleware
(src/trace/http.rs) otel.status_code is ERROR iff the status is
server-error-class, or — for a client-kind span — also client-error-class,
and is unset otherwise; the dedicated HTTP client middleware
(src/trace/http_client.rs) sets ERROR iff the status is client-error-class,
leaving server-error-class statuses unset. -/
theorem c3_amended :
    (∀ (kind : SpanKind) (writes : List (String × String)) (req : Request) (res : Response),
      lastVal (Trace.record_response (Trace.make_request_span kind writes req).1 kind res)
          "otel.status_code"
        = if isServerError res.status ∨ (kind = SpanKind.Client ∧ isClientError res.status)
          then some (AttrValue.s "ERROR") else none)
    ∧ (∀ (writes : List (String × String)) (req : Request) (res : Response),
      lastVal (HttpClient.record_response (HttpClient.make_request_span writes req).1 res)
          "otel.status_code"
        = if isClientError res.status then some (AttrValue.s "ERROR") else none) := by
  constructor
  · intro kind writes req res
    have h0 := trace_make_span_status_none kind writes req
    have h2 : lastVal (headerAttrs "http.response.header." res.headers) "otel.status_code"
        = none := lastVal_headerAttrs_none _ _ _ (by decide)
    have hcs : ¬(isClientError res.status = true ∧ isServerError res.status = true) := by
      simp only [isClientError, isServerError, decide_eq_true_eq]
      omega
    cases kind with
    | Client =>
      by_cases hc : isClientError res.status <;> by_cases hs : isServerError res.status <;>
        simp_all [Trace.record_response, lastVal_append, lastVal_cons, lastVal_singleton, lastVal_nil]
    | Server =>
      by_cases hs : isServerError res.status <;>
        simp_all [Trace.record_response, lastVal_append, lastVal_cons, lastVal_singleton, lastVal_nil]
  · intro writes req res
    have h0 := http_client_make_span_status_none writes req
    have h2 : lastVal (headerAttrs "http.response.header." res.headers) "otel.status_code"
        = none := lastVal_headerAttrs_none _ _ _ (by decide)
    by_cases hc : isClientError res.status <;>
      simp_all [HttpClient.record_response, lastVal_append, lastVal_cons, lastVal_singleton, lastVal_nil]

theorem trimLeadingSlashes_single (rest : String) (hh : rest.data.head? ≠ some '/') :
    trimLeadingSlashes ("/" ++ rest) = rest := by
  have hd : ("/" ++ rest).data = '/' :: rest.data := by
    rw [String.data_append]
    rfl
  have hdw : rest.data.dropWhile (fun c => c = '/') = rest.data := by
    cases hr : rest.data with
    | nil => rfl
    | cons c cs =>
      have hc : ¬(c = '/') := by
        intro he
        rw [hr, he] at hh
        simp at hh
      simp [List.dropWhile_cons, hc]
  simp only [trimLeadingSlashes, hd, List.dropWhile_cons, decide_eq_true_eq, if_pos rfl]
  simp [hdw]

/-- Claim C7: for every gRPC request path of the form slash-then-rest (rest
not itself starting with a slash), rpc.service and rpc.method are the parts
of rest before and after its first slash; when rest has no slash, both are
left unset. -/
theorem c7_grpc_service_method (kind : SpanKind) (writes : List (String × String))
    (req : Request) (rest : String)
    (hpath : req.uriPath = "/" ++ rest)
    (hh : rest.data.head? ≠ some '/') :
    (∀ sm, splitOnceChar '/' rest = some sm →
      lastVal (Grpc.make_request_span kind writes req).1 "rpc.service"
          = some (AttrValue.s sm.1)
      ∧ lastVal (Grpc.make_request_span kind writes req).1 "rpc.method"
          = some (AttrValue.s sm.2))
    ∧ (splitOnceChar '/' rest = none →
      lastVal (Grpc.make_request_span kind writes req).1 "rpc.service" = none
      ∧ lastVal (Grpc.make_request_span kind writes req).1 "rpc.method" = none) := by
  have htrim : trimLeadingSlashes req.uriPath = rest := by
    rw [hpath]
    exact trimLeadingSlashes_single rest hh
  have hs1 : lastVal (headerAttrs "rpc.grpc.request.metadata." req.headers) "rpc.service"
      = none := lastVal_headerAttrs_none _ _ _ (by decide)
  have hs2 : lastVal (headerAttrs "rpc.grpc.request.metadata." req.headers) "rpc.method"
      = none := lastVal_headerAttrs_none _ _ _ (by decide)
  constructor
  · intro sm hsm
    cases kind <;>
      simp [Grpc.make_request_span, htrim, hsm, lastVal_append, lastVal_cons,
        lastVal_singleton, lastVal_nil, hs1, hs2]
  · intro hsm
    cases kind <;>
      simp [Grpc.make_request_span, htrim, hsm, lastVal_append, lastVal_cons,
        lastVal_singleton, lastVal_nil, hs1, hs2]

/-- Witness for claim C7 at the concrete path /greet.Greeter/SayHello. -/
theorem c7_witness :
    lastVal
      (Grpc.make_request_span SpanKind.Server []
        { sampleRequest with uriPath := "/greet.Greeter/SayHello" }).1
      "rpc.service" = some (AttrValue.s "greet.Greeter")
    ∧ lastVal
        (Grpc.make_request_span SpanKind.Server []
          { sampleRequest with uriPath := "/greet.Greeter/SayHello" }).1
        "rpc.method" = some (AttrValue.s "SayHello") := by
  have h := (c7_grpc_service_method SpanKind.Server []
    { sampleRequest with uriPath := "/greet.Greeter/SayHello" }
    "greet.Greeter/SayHello" (by decide) (by decide)).1
    ("greet.Greeter", "SayHello") (by decide)
  exact h

/-- Claim C10: on a successful gRPC response, a missing grpc-status header
records rpc.grpc.status_code = 0, while a grpc-status header that does not
decode as text or does not parse as a 32-bit integer leaves
rpc.grpc.status_code unrecorded. -/
theorem c10_grpc_status_code (kind : SpanKind) (writes : List (String × String))
    (req : Request) (res : Response) :
    (headerGet res.headers "grpc-status" = none →
      lastVal (Grpc.record_response (Grpc.make_request_span kind writes req).1 res)
        "rpc.grpc.status_code" = some (AttrValue.i 0))
    ∧ (∀ v, headerGet res.headers "grpc-status" = some v → headerValueToStr v = none →
      lastVal (Grpc.record_response (Grpc.make_request_span kind writes req).1 res)
        "rpc.grpc.status_code" = none)
    ∧ (∀ v s, headerGet res.headers "grpc-status" = some v → headerValueToStr v = some s →
      parseI32 s = none →
      lastVal (Grpc.record_response (Grpc.make_request_span kind writes req).1 res)
        "rpc.grpc.status_code" = none) := by
  have h0 := grpc_make_span_grpc_status_none kind writes req
  have hmeta : lastVal (headerAttrs "rpc.grpc.response.metadata." res.headers)
      "rpc.grpc.status_code" = none := lastVal_headerAttrs_none _ _ _ (by decide)
  refine ⟨?_, ?_, ?_⟩
  · intro hg
    simp [Grpc.record_response, hg, lastVal_append, lastVal_cons, lastVal_singleton,
      lastVal_nil, h0, hmeta]
  · intro v hg hv
    simp [Grpc.record_response, hg, hv, lastVal_append, lastVal_cons, lastVal_singleton,
      lastVal_nil, h0, hmeta]
  · intro v s hg hv hp
    simp [Grpc.record_response, hg, hv, hp, lastVal_append, lastVal_cons,
      lastVal_singleton, lastVal_nil, h0, hmeta]

/-- Witness for claim C10: a response without grpc-status records 0; a
response whose grpc-status value is a non-text byte, or the unparsable text
abc, records nothing. -/
theorem c10_witness :
    lastVal (Grpc.record_response (Grpc.make_request_span SpanKind.Server [] sampleRequest).1
        (sampleResponse 200)) "rpc.grpc.status_code" = some (AttrValue.i 0)
    ∧ lastVal (Grpc.record_response (Grpc.make_request_span SpanKind.Server [] sampleRequest).1
        { status := 200, headers := [("grpc-status", [200])], bodySizeHint := none })
        "rpc.grpc.status_code" = none
    ∧ lastVal (Grpc.record_response (Grpc.make_request_span SpanKind.Server [] sampleRequest).1
        { status := 200, headers := [("grpc-status", str2bytes "abc")], bodySizeHint := none })
        "rpc.grpc.status_code" = none := by
  refine ⟨?_, ?_, ?_⟩
  · exact (c10_grpc_status_code SpanKind.Server [] sampleRequest (sampleResponse 200)).1
      (by decide)
  · exact (c10_grpc_status_code SpanKind.Server [] sampleRequest
      { status := 200, headers := [("grpc-status", [200])], bodySizeHint := none }).2.1
      [200] (by decide) (by decide)
  · exact (c10_grpc_status_code SpanKind.Server [] sampleRequest
      { status := 200, headers := [("grpc-status", str2bytes "abc")], bodySizeHint := none }).2.2
      (str2bytes "abc") "abc" (by decide) (by decide) (by decide)

theorem char_toNat_ofNat (n : Nat) (h : n.isValidChar) : (Char.ofNat n).toNat = n := by
  simp [Char.ofNat, h, Char.ofNatAux, Char.toNat, UInt32.toNat]

theorem lowerChar_idem (c : Char) : lowerChar (lowerChar c) = lowerChar c := by
  unfold lowerChar
  by_cases h : 65 ≤ c.toNat ∧ c.toNat ≤ 90
  · have hv : (c.toNat + 32).isValidChar := Or.inl (by omega)
    rw [if_pos h]
    rw [if_neg]
    rw [char_toNat_ofNat _ hv]
    omega
  · rw [if_neg h, if_neg h]

theorem lowerString_idem (s : String) : lowerString (lowerString s) = lowerString s := by
  simp only [lowerString, List.map_map]
  congr 1
  exact List.map_congr_left (fun c _ => lowerChar_idem c)

theorem headerGet_insert_self (hs : HeaderMap) (k : String) (bytes : List Nat) :
    headerGet (headerInsert hs (lowerString k) bytes) k = some bytes := by
  unfold headerGet headerInsert
  rw [List.find?_append]
  have h1 : (hs.filter (fun kv => lowerString kv.1 ≠ lowerString k)).find?
      (fun kv => lowerString kv.1 = lowerString k) = none := by
    rw [List.find?_eq_none]
    intro x hx
    have := (List.mem_filter.mp hx).2
    simpa using this
  rw [h1]
  simp [List.find?, lowerString_idem]

theorem headerValueToStr_str2bytes (v : String) (hv : asciiHeaderValue v = true) :
    headerValueToStr (str2bytes v) = some v := by
  unfold headerValueToStr str2bytes
  unfold asciiHeaderValue at hv
  rw [if_pos]
  · congr 1
    rw [List.map_map]
    have : v.data.map (Char.ofNat ∘ fun c => c.toNat) = v.data.map id :=
      List.map_congr_left (fun c _ => Char.ofNat_toNat c)
    rw [this, List.map_id]
  · rw [List.all_eq_true]
    intro b hb
    obtain ⟨c, hc, rfl⟩ := List.mem_map.mp hb
    simpa using List.all_eq_true.mp hv c hc

theorem utf8EncodeChar_ascii (c : Char) (h : c.toNat < 128) :
    utf8EncodeChar c = [c.toNat] := by
  unfold utf8EncodeChar
  simp [h]

theorem utf8Encode_ascii (v : String) (h : asciiHeaderValue v = true) :
    utf8Encode v = str2bytes v := by
  unfold utf8Encode str2bytes
  unfold asciiHeaderValue at h
  rw [List.all_eq_true] at h
  have hgen : ∀ l : List Char, (∀ c ∈ l, (32 ≤ c.toNat ∧ c.toNat < 127) ∨ c.toNat = 9) →
      (l.map utf8EncodeChar).flatten = l.map (fun c => c.toNat) := by
    intro l hl
    induction l with
    | nil => rfl
    | cons c cs ih =>
      simp only [List.map_cons, List.flatten_cons]
      rw [utf8EncodeChar_ascii c
        (by have := hl c (List.mem_cons_self c cs); omega)]
      rw [ih (fun x hx => hl x (List.mem_cons_of_mem c hx))]
      rfl
  exact hgen v.data (fun c hc => by simpa using h c hc)

theorem asciiHeaderValue_valid (v : String) (h : asciiHeaderValue v = true) :
    validHeaderValue v = true := by
  unfold validHeaderValue
  rw [utf8Encode_ascii v h]
  unfold str2bytes
  rw [List.all_eq_true]
  intro b hb
  obtain ⟨c, hc, rfl⟩ := List.mem_map.mp hb
  unfold asciiHeaderValue at h
  have := List.all_eq_true.mp h c hc
  simp at this ⊢
  omega

theorem find?_filter_of_imp {α : Type} (p q : α → Bool) (l : List α)
    (himp : ∀ x, p x = true → q x = true) :
    (l.filter q).find? p = l.find? p := by
  induction l with
  | nil => rfl
  | cons x rest ih =>
    by_cases hpx : p x = true
    · have hqx := himp x hpx
      simp [List.filter_cons, hqx, List.find?, hpx]
    · rw [Bool.not_eq_true] at hpx
      by_cases hqx : q x = true
      · have hfil : (x :: rest).filter q = x :: rest.filter q := by
          simp [List.filter_cons, hqx]
        rw [hfil]
        simp [List.find?, hpx, ih]
      · have hfil : (x :: rest).filter q = rest.filter q := by
          simp [List.filter_cons, hqx]
        rw [hfil, ih]
        simp [List.find?, hpx]

theorem headerGet_injectorSet_other (hs : HeaderMap) (kp vp k : String)
    (hne : lowerString kp ≠ lowerString k) :
    headerGet (headerInjectorSet hs kp vp) k = headerGet hs k := by
  unfold headerInjectorSet
  by_cases h1 : validHeaderName kp = true
  · by_cases h2 : validHeaderValue vp = true
    · rw [if_pos h1, if_pos h2]
      unfold headerGet headerInsert
      rw [List.find?_append]
      have hsing : ([((lowerString kp : String), utf8Encode vp)]).find?
          (fun kv => lowerString kv.1 = lowerString k) = none := by
        simp [List.find?, lowerString_idem, hne]
      rw [hsing]
      rw [find?_filter_of_imp]
      · cases hs.find? (fun kv => lowerString kv.1 = lowerString k) <;> rfl
      · intro x hx
        simp only [decide_eq_true_eq] at hx ⊢
        rw [hx]
        exact fun he => hne he.symm
    · rw [if_pos h1, if_neg h2]
  · rw [if_neg h1]

theorem extractorGet_injectAll_untouched (writes : List (String × String)) (hs : HeaderMap)
    (k : String) (h : ∀ b ∈ writes, lowerString b.1 ≠ lowerString k) :
    headerGet (injectAll writes hs) k = headerGet hs k := by
  induction writes generalizing hs with
  | nil => rfl
  | cons w rest ih =>
    have step : injectAll (w :: rest) hs
        = injectAll rest (headerInjectorSet hs w.1 w.2) := rfl
    rw [step]
    rw [ih (headerInjectorSet hs w.1 w.2) (fun b hb => h b (List.mem_cons_of_mem w hb))]
    exact headerGet_injectorSet_other hs w.1 w.2 k (h w (List.mem_cons_self w rest))

/-- Claim C9 counterexample: the set-then-get law fails for values with
non-ASCII bytes. The key traceparent is a valid header name and the
one-character string with code point 233 passes HeaderValue::from_str
validation (its UTF-8 bytes 195 and 169 are accepted opaque octets), so
HeaderInjector::set inserts it — but HeaderExtractor::get then fails to_str
on those bytes and returns nothing instead of the injected value. -/
theorem c9_counterexample :
    validHeaderName "traceparent" = true
    ∧ validHeaderValue (String.mk [Char.ofNat 233]) = true
    ∧ headerInjectorSet [] "traceparent" (String.mk [Char.ofNat 233])
        = [("traceparent", [195, 169])]
    ∧ headerExtractorGet
        (headerInjectorSet [] "traceparent" (String.mk [Char.ofNat 233]))
        "traceparent" = none := by
  refine ⟨by decide, by decide, by decide, by decide⟩

/-- Claim C9 (amended): adapter-level propagation round trip for text
values. A value consisting of visible-ASCII-or-tab characters set via the
header injector under a valid header key is returned unchanged by a
subsequent extractor get of that key; more generally, every pair of a
propagator's write set (valid names, ASCII text values, pairwise-distinct
keys) is recovered intact after injecting the whole set, so a propagator
whose wire values are ASCII text — as W3C trace-context values are —
recovers the injected context's parent identity. Values with non-ASCII
bytes are inserted by the injector but read back as absent by the
extractor. -/
theorem c9_round_trip_amended :
    (∀ (hs : HeaderMap) (k v : String),
      validHeaderName k = true → asciiHeaderValue v = true →
      headerExtractorGet (headerInjectorSet hs k v) k = some v)
    ∧ (∀ (writes : List (String × String)) (hs : HeaderMap),
        (∀ kv ∈ writes, validHeaderName kv.1 = true ∧ asciiHeaderValue kv.2 = true) →
        writes.Pairwise (fun a b => lowerString a.1 ≠ lowerString b.1) →
        ∀ kv ∈ writes, headerExtractorGet (injectAll writes hs) kv.1 = some kv.2) := by
  have single : ∀ (hs : HeaderMap) (k v : String),
      validHeaderName k = true → asciiHeaderValue v = true →
      headerExtractorGet (headerInjectorSet hs k v) k = some v := by
    intro hs k v hk ha
    have hv := asciiHeaderValue_valid v ha
    unfold headerExtractorGet headerInjectorSet
    rw [if_pos hk, if_pos hv, headerGet_insert_self, utf8Encode_ascii v ha]
    simp [headerValueToStr_str2bytes v ha]
  refine ⟨single, ?_⟩
  intro writes
  induction writes with
  | nil =>
    intro hs _ _ kv hkv
    simp at hkv
  | cons w rest ih =>
    intro hs hvalid hpw kv hkv
    have hpw2 := List.pairwise_cons.mp hpw
    have step : injectAll (w :: rest) hs
        = injectAll rest (headerInjectorSet hs w.1 w.2) := rfl
    rw [step]
    rcases List.mem_cons.mp hkv with heq | hmem
    · subst heq
      have huntouched := extractorGet_injectAll_untouched rest
        (headerInjectorSet hs kv.1 kv.2) kv.1
        (fun b hb => (hpw2.1 b hb).symm)
      unfold headerExtractorGet
      rw [huntouched]
      obtain ⟨hk, ha⟩ := hvalid kv (List.mem_cons_self kv rest)
      have hv := asciiHeaderValue_valid kv.2 ha
      unfold headerInjectorSet
      rw [if_pos hk, if_pos hv, headerGet_insert_self, utf8Encode_ascii kv.2 ha]
      simp [headerValueToStr_str2bytes _ ha]
    · exact ih (headerInjectorSet hs w.1 w.2)
        (fun kv2 h2 => hvalid kv2 (List.mem_cons_of_mem w h2)) hpw2.2 kv hmem

/-- Witness for claim C9 with a concrete traceparent header write. -/
theorem c9_round_trip_witness :
    headerExtractorGet
      (headerInjectorSet [] "traceparent"
        "00-0af7651916cd43dd8448eb211c80319c-b7ad6b7169203331-01")
      "traceparent"
      = some "00-0af7651916cd43dd8448eb211c80319c-b7ad6b7169203331-01"
    ∧ headerExtractorGet
        (injectAll [("traceparent", "00-ab-cd-01"), ("tracestate", "k=v")] [])
        "tracestate" = some "k=v" := by
  constructor
  · exact c9_round_trip_amended.1 [] "traceparent"
      "00-0af7651916cd43dd8448eb211c80319c-b7ad6b7169203331-01" (by decide) (by decide)
  · exact c9_round_trip_amended.2 [("traceparent", "00-ab-cd-01"), ("tracestate", "k=v")] []
      (by decide) (by decide) ("tracestate", "k=v") (by decide)

/-- Claim C8: on the client path of src/trace/http.rs, the forwarded request
is the original request with the propagator's writes injected into its
headers (injection completes before the call is forwarded), the span's
recorded fields are computed before and independently of the injection
(the span is created first and its header attributes see the pre-injection
headers), and any key or value that fails header validation is silently
dropped by HeaderInjector::set, leaving the header map unchanged. -/
theorem c8_injection_order_and_drop :
    (∀ (writes : List (String × String)) (req : Request),
      (Trace.make_request_span SpanKind.Client writes req).2
        = { req with headers := injectAll writes req.headers }
      ∧ (Trace.make_request_span SpanKind.Client writes req).1
        = (Trace.make_request_span SpanKind.Client [] req).1)
    ∧ (∀ (hs : HeaderMap) (k v : String),
        validHeaderName k = false ∨ validHeaderValue v = false →
        headerInjectorSet hs k v = hs) := by
  constructor
  · intro writes req
    exact ⟨rfl, rfl⟩
  · intro hs k v hinv
    unfold headerInjectorSet
    rcases hinv with h | h
    · have hkf : ¬(validHeaderName k = true) := by simp [h]
      rw [if_neg hkf]
    · have hvf : ¬(validHeaderValue v = true) := by simp [h]
      by_cases h1 : validHeaderName k = true
      · rw [if_pos h1, if_neg hvf]
      · rw [if_neg h1]

/-- Witness for claim C8: a concrete traceparent write lands in the
forwarded request, a key with a space is silently dropped, and a value with
a control character is silently dropped. -/
theorem c8_witness :
    (Trace.make_request_span SpanKind.Client [("traceparent", "00-ab")] sampleRequest).2
      = { sampleRequest with
            headers := injectAll [("traceparent", "00-ab")] sampleRequest.headers }
    ∧ headerInjectorSet [] "bad name" "value" = []
    ∧ headerInjectorSet [] "x-key" "a\nb" = [] := by
  refine ⟨?_, ?_, ?_⟩
  · exact (c8_injection_order_and_drop.1 [("traceparent", "00-ab")] sampleRequest).1
  · exact c8_injection_order_and_drop.2 [] "bad name" "value" (Or.inl (by decide))
  · exact c8_injection_order_and_drop.2 [] "x-key" "a\nb" (Or.inr (by decide))

/-- Claim C6: for every request through the metrics middleware, the full
histogram attribute list is the active-requests attribute block followed by
a nonempty tail — protocol name, optional protocol version, optional route,
and the outcome attribute are all appended after the boundary, the boundary
is unchanged by completion, and the network.protocol.name attribute always
lies beyond it, so the active-requests set is a strict front part of the
histogram set. -/
theorem c6_active_attrs_strict {E : Type} (display : E → String) (side : MetricSide)
    (req : Request) (res : Except E Response) :
    ((ResponseMetricState.new side req).push_response_attributes display res).attributes
      = (ResponseMetricState.new side req).activeAttrs
        ++ ([(⟨"network.protocol.name", AttrValue.s "http"⟩ : KeyValue)]
          ++ optAttr "network.protocol.version" ((http_version req.version).map AttrValue.s)
          ++ optAttr "http.route" ((http_route req).map AttrValue.s)
          ++ [match res with
              | .ok r => (⟨"http.response.status_code", AttrValue.i r.status⟩ : KeyValue)
              | .error e => (⟨"error.type", AttrValue.s (display e)⟩ : KeyValue)])
    ∧ ((ResponseMetricState.new side req).push_response_attributes display res).activeAttrs
        = (ResponseMetricState.new side req).activeAttrs
    ∧ (ResponseMetricState.new side req).active_requests_attributes
        < ((ResponseMetricState.new side req).push_response_attributes
            display res).attributes.length := by
  have hbase : (ResponseMetricState.new side req).attributes
      = ResponseMetricState.baseAttributes side req
        ++ ([(⟨"network.protocol.name", AttrValue.s "http"⟩ : KeyValue)]
          ++ optAttr "network.protocol.version" ((http_version req.version).map AttrValue.s)
          ++ optAttr "http.route" ((http_route req).map AttrValue.s)) := by
    simp [ResponseMetricState.new]
  have hbnd : (ResponseMetricState.new side req).active_requests_attributes
      = (ResponseMetricState.baseAttributes side req).length := rfl
  have hactive : (ResponseMetricState.new side req).activeAttrs
      = ResponseMetricState.baseAttributes side req := by
    unfold ResponseMetricState.activeAttrs
    rw [hbase, hbnd]
    simp only [List.append_assoc]
    exact List.take_left _ _
  cases res with
  | ok r =>
    have hpush : ((ResponseMetricState.new side req).push_response_attributes display
        (Except.ok r)).attributes
        = (ResponseMetricState.new side req).attributes
          ++ [⟨"http.response.status_code", AttrValue.i r.status⟩] := rfl
    have hpushb : ((ResponseMetricState.new side req).push_response_attributes display
        (Except.ok r)).active_requests_attributes
        = (ResponseMetricState.new side req).active_requests_attributes := rfl
    refine ⟨?_, ?_, ?_⟩
    · rw [hpush, hbase, hactive]
      simp [List.append_assoc]
    · unfold ResponseMetricState.activeAttrs
      rw [hpush, hpushb, hbnd, hbase]
      simp only [List.append_assoc]
      rw [List.take_left, List.take_left]
    · rw [hpush, hbnd, hbase]
      simp
  | error e =>
    have hpush : ((ResponseMetricState.new side req).push_response_attributes display
        (Except.error e)).attributes
        = (ResponseMetricState.new side req).attributes
          ++ [⟨"error.type", AttrValue.s (display e)⟩] := rfl
    have hpushb : ((ResponseMetricState.new side req).push_response_attributes display
        (Except.error e)).active_requests_attributes
        = (ResponseMetricState.new side req).active_requests_attributes := rfl
    refine ⟨?_, ?_, ?_⟩
    · rw [hpush, hbase, hactive]
      simp [List.append_assoc]
    · unfold ResponseMetricState.activeAttrs
      rw [hpush, hpushb, hbnd, hbase]
      simp only [List.append_assoc]
      rw [List.take_left, List.take_left]
    · rw [hpush, hbnd, hbase]
      simp

/-- Claim C4: when the inner service resolves with an error, the trace
middleware records otel.status_code = ERROR and error.message equal to the
error's Display form and forwards the error unchanged, and the metrics
middleware records exactly one duration value over the request's whole
lifecycle and forwards the error unchanged. -/
theorem c4_error_finalization {E : Type} (display : E → String) (e : E) (kind : SpanKind)
    (writes : List (String × String)) (req : Request) (side : MetricSide)
    (pendingPolls : Nat) :
    lastVal (Trace.pollReady display (Trace.make_request_span kind writes req).1 kind
        (Except.error e)).1 "otel.status_code" = some (AttrValue.s "ERROR")
    ∧ lastVal (Trace.pollReady display (Trace.make_request_span kind writes req).1 kind
        (Except.error e)).1 "error.message" = some (AttrValue.s (display e))
    ∧ (Trace.pollReady display (Trace.make_request_span kind writes req).1 kind
        (Except.error e)).2 = Except.error e
    ∧ durationCount (lifecycleOps display side req pendingPolls
        (Ending.ready (Except.error e))) = 1
    ∧ (metricsPollReady display (ResponseMetricState.new side req)
        (Except.error e)).2 = Except.error e := by
  refine ⟨?_, ?_, rfl, ?_, rfl⟩
  · simp [Trace.pollReady, Trace.record_error, lastVal_append, lastVal_cons,
      lastVal_singleton, lastVal_nil]
  · simp [Trace.pollReady, Trace.record_error, lastVal_append, lastVal_cons,
      lastVal_singleton, lastVal_nil]
  · cases hrb : ((ResponseMetricState.new side req).push_response_attributes display
        (Except.error e)).request_body_size <;>
      simp [lifecycleOps, metricsCall, metricsPollReady, durationCount,
        List.countP_append, hrb]

/-- Claim C2 counterexample: the tracing middleware does alter the forwarded
request on the client path — with a propagator that writes a traceparent
header, the request forwarded to the inner service differs from the
original request. -/
theorem c2_counterexample :
    (Trace.make_request_span SpanKind.Client
        [("traceparent", "00-ab")] sampleRequest).2 ≠ sampleRequest := by
  decide

/-- Claim C2 (amended): both middlewares return the inner service's outcome
exactly (a success as the same response, an error as the same error); the
metrics middleware forwards the request unchanged, and the tracing
middleware forwards it unchanged except that on the client path the
propagator's trace-context writes are injected into its headers. -/
theorem c2_outcome_passthrough {E : Type} (display : E → String) :
    (∀ (fields : SpanFields) (kind : SpanKind) (res : Except E Response),
      (Trace.pollReady display fields kind res).2 = res)
    ∧ (∀ (st : ResponseMetricState) (res : Except E Response),
      (metricsPollReady display st res).2 = res)
    ∧ (∀ (side : MetricSide) (req : Request), (metricsCall side req).2.2 = req)
    ∧ (∀ (writes : List (String × String)) (req : Request),
      (Trace.make_request_span SpanKind.Server writes req).2 = req)
    ∧ (∀ (writes : List (String × String)) (req : Request),
      (Trace.make_request_span SpanKind.Client writes req).2
        = { req with headers := injectAll writes req.headers }) := by
  refine ⟨?_, ?_, ?_, ?_, ?_⟩
  · intro fields kind res
    cases res <;> rfl
  · intro st res
    rfl
  · intro side req
    rfl
  · intro writes req
    rfl
  · intro writes req
    rfl

theorem push_activeAttrs_stable {E : Type} (display : E → String) (side : MetricSide)
    (req : Request) (res : Except E Response) :
    ((ResponseMetricState.new side req).push_response_attributes display res).activeAttrs
      = (ResponseMetricState.new side req).activeAttrs := by
  have hbase : (ResponseMetricState.new side req).attributes
      = ResponseMetricState.baseAttributes side req
        ++ ([(⟨"network.protocol.name", AttrValue.s "http"⟩ : KeyValue)]
          ++ optAttr "network.protocol.version" ((http_version req.version).map AttrValue.s)
          ++ optAttr "http.route" ((http_route req).map AttrValue.s)) := by
    simp [ResponseMetricState.new]
  have hlen : (ResponseMetricState.new side req).active_requests_attributes
      ≤ (ResponseMetricState.new side req).attributes.length := by
    rw [show (ResponseMetricState.new side req).active_requests_attributes
        = (ResponseMetricState.baseAttributes side req).length from rfl, hbase]
    simp
  cases res with
  | ok r =>
    unfold ResponseMetricState.activeAttrs
    have hpush : ((ResponseMetricState.new side req).push_response_attributes display
        (Except.ok r)).attributes
        = (ResponseMetricState.new side req).attributes
          ++ [⟨"http.response.status_code", AttrValue.i r.status⟩] := rfl
    have hpushb : ((ResponseMetricState.new side req).push_response_attributes display
        (Except.ok r)).active_requests_attributes
        = (ResponseMetricState.new side req).active_requests_attributes := rfl
    rw [hpush, hpushb, List.take_append_of_le_length hlen]
  | error e =>
    unfold ResponseMetricState.activeAttrs
    have hpush : ((ResponseMetricState.new side req).push_response_attributes display
        (Except.error e)).attributes
        = (ResponseMetricState.new side req).attributes
          ++ [⟨"error.type", AttrValue.s (display e)⟩] := rfl
    have hpushb : ((ResponseMetricState.new side req).push_response_attributes display
        (Except.error e)).active_requests_attributes
        = (ResponseMetricState.new side req).active_requests_attributes := rfl
    rw [hpush, hpushb, List.take_append_of_le_length hlen]

/-- Claim C1, checked against the code: on every completed path (success or
error, after any number of pending polls) the active-requests counter nets
zero, with exactly one +1 and one -1 both carrying the same active-requests
attribute block; but on the drop path the counter nets +1, because
ResponseFuture in src/metrics/http.rs has no Drop implementation and the
decrement only runs inside the ready branch of poll. -/
theorem c1_active_requests_net {E : Type} (display : E → String) (side : MetricSide)
    (req : Request) (pendingPolls : Nat) :
    (∀ res : Except E Response,
      netActive (lifecycleOps display side req pendingPolls (Ending.ready res)) = 0
      ∧ activeIncrements (lifecycleOps display side req pendingPolls (Ending.ready res))
          = [(ResponseMetricState.new side req).activeAttrs]
      ∧ activeDecrements (lifecycleOps display side req pendingPolls (Ending.ready res))
          = [(ResponseMetricState.new side req).activeAttrs])
    ∧ netActive (lifecycleOps display side req pendingPolls Ending.dropped) = 1 := by
  constructor
  · intro res
    have hstable := push_activeAttrs_stable display side req res
    cases res with
    | ok r =>
      cases hrb : ((ResponseMetricState.new side req).push_response_attributes display
          (Except.ok r)).request_body_size <;>
        cases hres : http_response_size r <;>
          refine ⟨?_, ?_, ?_⟩ <;>
            simp [lifecycleOps, metricsCall, metricsPollReady, netActive,
              activeIncrements, activeDecrements, List.foldl_append,
              List.filterMap_append, hrb, hres, hstable]
    | error e =>
      cases hrb : ((ResponseMetricState.new side req).push_response_attributes display
          (Except.error e)).request_body_size <;>
        refine ⟨?_, ?_, ?_⟩ <;>
          simp [lifecycleOps, metricsCall, metricsPollReady, netActive,
            activeIncrements, activeDecrements, List.foldl_append,
            List.filterMap_append, hrb, hstable]
  · simp [lifecycleOps, metricsCall, netActive]
